import Mathlib

/-!
Verification of the flow-map data pipeline (`src/App - Copy1.tsx`, second copy,
lines 497-831): CSV parsing with per-cell value coercion, row filtering and
magnitude selection, stable descending sort, top-N coordinate repair, and the
log-domain visual-weight mapper.

Strings are modelled as `List Char` (JavaScript strings); JavaScript numbers are
modelled as exact rationals `ℚ` for the parse/filter/coordinate stages (every
operation there - decimal parsing, comparison, negation - is exact), and as real
numbers `ℝ` for the transcendental weight mapper.  A JavaScript `NaN` outcome is
modelled as `Option.none`.
-/

namespace FlowMap

/-- JavaScript whitespace characters relevant to `trim` (space, tab, LF, CR,
vertical tab, form feed). -/
def isWS (c : Char) : Bool :=
  c = ' ' || c = '\t' || c = '\n' || c = '\r' || c = '\x0b' || c = '\x0c'

/-- Drop leading whitespace. -/
def dropLeadingWS : List Char → List Char
  | [] => []
  | c :: cs => if isWS c then dropLeadingWS cs else c :: cs

/-- Drop trailing whitespace. -/
def dropTrailingWS : List Char → List Char
  | [] => []
  | c :: cs =>
    match dropTrailingWS cs with
    | [] => if isWS c then [] else [c]
    | r => c :: r

/-- JavaScript `String.prototype.trim`: drop whitespace from both ends. -/
def jsTrim (s : List Char) : List Char :=
  dropTrailingWS (dropLeadingWS s)

/-- JavaScript `String.prototype.toLowerCase` (ASCII case mapping). -/
def toLowerChars (s : List Char) : List Char :=
  s.map Char.toLower

/-- JavaScript `String.prototype.includes`: substring containment test. -/
def includesList (s pat : List Char) : Bool :=
  s.tails.any fun t => pat.isPrefixOf t

/-- Models `replaceAll('"', '')`: remove every double-quote character. -/
def removeQuotes (s : List Char) : List Char :=
  s.filter fun c => c ≠ '"'

/-- Digit run to a natural number (value of a decimal digit string). -/
def digitsToNat (l : List Char) : Nat :=
  l.foldl (fun a c => a * 10 + (c.toNat - '0'.toNat)) 0

/-- The decimal fragment of the JavaScript numeric-literal grammar, on an
already trimmed, non-empty string: optional sign, then digits with an optional
fraction part (`42`, `007`, `42.36`, `.5`, `42.`).  `none` models a `NaN`
result.  (Exotic forms - hex, exponent, `Infinity` - are outside the data
domain of this program and map to `none`.) -/
def parseDecimal (l : List Char) : Option ℚ :=
  let signed : Int × List Char :=
    match l with
    | '-' :: r => (-1, r)
    | '+' :: r => (1, r)
    | r => (1, r)
  let sign := signed.1
  let rest := signed.2
  let intD := rest.takeWhile Char.isDigit
  let rest2 := rest.drop intD.length
  match rest2 with
  | [] => if intD.isEmpty then none else some (mkRat (sign * digitsToNat intD) 1)
  | '.' :: fr =>
    let fracD := fr.takeWhile Char.isDigit
    if ¬(fr.drop fracD.length).isEmpty then none
    else if intD.isEmpty ∧ fracD.isEmpty then none
    else
      -- sign * (intD + fracD / 10^len), written as one exact fraction
      some (mkRat (sign * (digitsToNat intD * 10 ^ fracD.length + digitsToNat fracD))
        (10 ^ fracD.length))
  | _ => none

/-- JavaScript `Number(string)`: trims, the empty string yields `0`, otherwise
the decimal value; `none` models `NaN`. -/
def jsNumberOfChars (s : List Char) : Option ℚ :=
  let t := jsTrim s
  if t.isEmpty then some 0 else parseDecimal t

/-- JavaScript `parseInt(string)`: trim, optional sign, then the longest leading
digit run; `none` models `NaN` (no digits). -/
def jsParseInt (s : List Char) : Option Int :=
  let t := jsTrim s
  let signed : Int × List Char :=
    match t with
    | '-' :: r => (-1, r)
    | '+' :: r => (1, r)
    | r => (1, r)
  let digits := signed.2.takeWhile Char.isDigit
  if digits.isEmpty then none else some (signed.1 * digitsToNat digits)

/-- A JavaScript cell value as produced by the parser: a string or a (finite)
number. -/
inductive Value where
  | str (s : List Char)
  | num (q : ℚ)
deriving DecidableEq, Repr

/-- A parsed row models the JavaScript object built by `row[headers[colIndex]] = val`
as its assignment history, in assignment order. -/
abbrev Row := List (List Char × Value)

/-- JavaScript property read `row[k]`: the last assignment wins; `none` models
`undefined`. -/
def objGet (row : Row) (k : List Char) : Option Value :=
  (row.reverse.find? fun p => decide (p.1 = k)).map (·.2)

/-- Decimal rendering of the fractional part `num/den` (`0 < num < den`) by
long division, with enough fuel for every terminating decimal a JavaScript
double can print. -/
def fracDigits : Nat → Nat → Nat → List Char
  | 0, _, _ => []
  | _, 0, _ => []
  | fuel + 1, num, den =>
    let num10 := num * 10
    Nat.digitChar (num10 / den) :: fracDigits fuel (num10 % den) den

/-- JavaScript number-to-string conversion `String(q)`, for the terminating
decimals this program produces: sign, integer part, and a fraction part when
present. -/
def qToChars (q : ℚ) : List Char :=
  let n := q.num.natAbs
  let d := q.den
  let intPart := Nat.toDigits 10 (n / d)
  let frac := if n % d = 0 then [] else '.' :: fracDigits 1100 (n % d) d
  (if q < 0 then ['-'] else []) ++ intPart ++ frac

/-- JavaScript `String(x)` on a possibly-undefined cell value. -/
def jsStringV : Option Value → List Char
  | none => "undefined".data
  | some (.str s) => s
  | some (.num q) => qToChars q

/-- JavaScript truthiness of a string (non-empty). -/
def truthyStr (s : List Char) : Bool := ¬ s.isEmpty

/-- JavaScript truthiness of a possibly-undefined cell value: `undefined`, the
empty string and the number `0` are falsy. -/
def truthyVal : Option Value → Bool
  | none => false
  | some (.str s) => ¬ s.isEmpty
  | some (.num q) => decide (q ≠ 0)

/-- JavaScript `Number(x)` on a possibly-undefined cell value
(`Number(undefined) = NaN`, numbers pass through, strings are parsed). -/
def jsNumberOfValue : Option Value → Option ℚ
  | none => none
  | some (.num q) => some q
  | some (.str s) => jsNumberOfChars s

/-! ### CSV parser (`parseCSV`, source lines 497-538) -/

/-- Split on `/\r?\n/`: a line break is `\r\n` or a bare `\n`; a bare `\r` is
ordinary content.  Yields one (possibly empty) field per segment, so the result
is always non-empty. -/
def splitLines : List Char → List (List Char)
  | [] => [[]]
  | '\r' :: '\n' :: cs => [] :: splitLines cs
  | '\n' :: cs => [] :: splitLines cs
  | c :: cs =>
    match splitLines cs with
    | [] => [[c]]
    | l :: ls => (c :: l) :: ls

/-- Plain `split(',')` used for the header line (not quote-aware). -/
def splitOnComma : List Char → List (List Char)
  | [] => [[]]
  | ',' :: cs => [] :: splitOnComma cs
  | c :: cs =>
    match splitOnComma cs with
    | [] => [[c]]
    | l :: ls => (c :: l) :: ls

/-- The numeric check `!isNaN(val) && val !== ''` on an already trimmed field:
the empty string is not numeric; otherwise the value of `Number(val)` when that
is not `NaN`. -/
def coerceNum (val : List Char) : Option ℚ :=
  if val.isEmpty then none else parseDecimal val

/-- Models `val.startsWith('"') && val.endsWith('"')` (a single `"` passes both). -/
def startsEndsQuote (l : List Char) : Bool :=
  l.head? = some '"' && l.getLast? = some '"'

/-- Models `val.slice(1, -1)`: drop the first and last characters. -/
def stripOuter (l : List Char) : List Char := (l.drop 1).dropLast

/-- Per-cell coercion, source lines 517-519 / 530-532: trim; if the trimmed
string is non-empty and numeric, the number; otherwise, if it still starts and
ends with a double quote, strip one outer layer; otherwise the trimmed string. -/
def coerceCell (s : List Char) : Value :=
  let val := jsTrim s
  match coerceNum val with
  | some q => .num q
  | none => if startsEndsQuote val then .str (stripOuter val) else .str val

/-- The same coercion with the post-numeric-check quote-stripping branch
removed; used to state that the branch is dead code. -/
def coerceCellNoStrip (s : List Char) : Value :=
  let val := jsTrim s
  match coerceNum val with
  | some q => .num q
  | none => .str val

/-- The character-by-character quote-aware scan of a data line (source lines
507-527): a double quote toggles `inQuote` and is never accumulated into the
field buffer; a comma outside quotes ends the current field; every other
character (including a comma inside quotes) is accumulated.  The result is the
list of raw field buffers in order (one per column index the loop visits,
including the final buffer flushed at end of line). -/
def scanFields : List Char → Bool → List (List Char)
  | [], _ => [[]]
  | '"' :: cs, inQuote => scanFields cs (!inQuote)
  | ',' :: cs, false => [] :: scanFields cs false
  | ',' :: cs, true =>
    match scanFields cs true with
    | [] => [[',']]
    | f :: fs => (',' :: f) :: fs
  | c :: cs, inQuote =>
    match scanFields cs inQuote with
    | [] => [[c]]
    | f :: fs => (c :: f) :: fs

/-- Build the row from the scanned field buffers: the loop assigns
`row[headers[colIndex]] = coerce(currentVal)` exactly for each column index
that is in bounds of `headers` (excess fields are dropped; a short line leaves
the remaining headers unassigned). -/
def rowOfFields (coerce : List Char → Value) (headers fields : List (List Char)) : Row :=
  (headers.zip fields).map fun p => (p.1, coerce p.2)

/-- The parser `parseCSV`, parameterised by the cell coercion: split into lines, drop
blank lines, read the header row (plain comma split, each token trimmed), and
scan every remaining line. -/
def parseCSVWith (coerce : List Char → Value) (csvText : String) : List Row :=
  let lines := (splitLines csvText.data).filter fun l => !(jsTrim l).isEmpty
  match lines with
  | [] => []
  | header :: rest =>
    let headers := (splitOnComma header).map jsTrim
    rest.map fun line => rowOfFields coerce headers (scanFields line false)

/-- The program's CSV parser (source lines 497-538). -/
def parseCSV (csvText : String) : List Row := parseCSVWith coerceCell csvText

/-! ### Coordinate repair (`toNum`, `fixLon`, source lines 543-549) -/

/-- Models `toNum` (source lines 543-547): `String(v ?? '').trim().replaceAll('"','')`
then `Number`, with a `Number.isFinite` guard; `none` models `NaN`.
`String(undefined ?? '')` is the empty string, and `Number('') = 0`, so a
missing cell yields `0`.  A numeric cell round-trips through its decimal
rendering, which has no quotes or whitespace, so it yields its own value. -/
def toNumV : Option Value → Option ℚ
  | none => some 0
  | some (.num q) => some q
  | some (.str s) => jsNumberOfChars (removeQuotes (jsTrim s))

/-- Models `fixLon` (source line 549): negate a positive longitude, keep the rest. -/
def fixLon (lon : ℚ) : ℚ := if lon > 0 then -lon else lon

/-! ### Selector (`filteredData`, source lines 787-806) -/

inductive Purpose where
  | leisure
  | business
  | total
deriving DecidableEq, Repr

/-- The filter configuration held in component state. -/
structure Config where
  selectedYear : List Char
  selectedType : Purpose
  searchOrigin : List Char
  searchDest : List Char

def yearKey : List Char := "year".data
def originKey : List Char := "origin_name".data
def destKey : List Char := "destination_name".data
def latOKey : List Char := "lat_o".data
def lonOKey : List Char := "lon_o".data
def latDKey : List Char := "lat_d".data
def lonDKey : List Char := "lon_d".data

/-- The magnitude column selected by the purpose (source lines 798-801). -/
def magnitudeKey : Purpose → List Char
  | .leisure => "total_wt_l_all".data
  | .business => "total_wt_b_all".data
  | .total => "total_wt_t_all".data

/-- Year filter (source line 790):
`if (selectedYear !== 'All' && row.year !== parseInt(selectedYear)) return false`.
The strict comparison `row.year !== n` is false only for a numeric cell equal
to `n`; `parseInt` yielding `NaN` rejects every row. -/
def yearPasses (selectedYear : List Char) (row : Row) : Bool :=
  if selectedYear = "All".data then true
  else
    match objGet row yearKey, jsParseInt selectedYear with
    | some (.num q), some n => decide (q = (n : ℚ))
    | _, _ => false

/-- Text filter (source lines 791-794), for origin and destination alike:
`if (query && cell && !String(cell).toLowerCase().includes(query.toLowerCase())) return false`.
The row is rejected only when the query is truthy, the cell is truthy, and the
lowercased stringified cell does not contain the lowercased query. -/
def textFilterPasses (query : List Char) (cell : Option Value) : Bool :=
  !(truthyStr query && truthyVal cell &&
    !(includesList (toLowerChars (jsStringV cell)) (toLowerChars query)))

/-- The whole filter predicate of `filteredData` (source lines 789-796). -/
def rowPasses (cfg : Config) (row : Row) : Bool :=
  yearPasses cfg.selectedYear row
    && textFilterPasses cfg.searchOrigin (objGet row originKey)
    && textFilterPasses cfg.searchDest (objGet row destKey)

/-- A filtered record: the original row with `displayValue`/`displayType`
attached (`{...row, displayValue, displayType}`, source line 802). -/
structure FlowRow where
  base : Row
  displayValue : ℚ
  displayType : Purpose
deriving DecidableEq, Repr

/-- The map step of `filteredData` (source lines 797-803):
`displayValue = Number(selected magnitude) || 0`. -/
def attachDV (t : Purpose) (row : Row) : FlowRow :=
  { base := row
    displayValue := (jsNumberOfValue (objGet row (magnitudeKey t))).getD 0
    displayType := t }

/-- The rows of `filteredData` before sorting: filter, attach `displayValue`,
keep strictly positive values (source lines 788-804). -/
def eligibleRows (cfg : Config) (data : List Row) : List FlowRow :=
  ((data.filter (rowPasses cfg)).map (attachDV cfg.selectedType)).filter
    fun r => decide (0 < r.displayValue)

/-- The comparator of the stable sort `(a, b) => b.displayValue - a.displayValue`
(source line 805): `a` may stay before `b` exactly when `b.displayValue ≤ a.displayValue`. -/
def dvLE (a b : FlowRow) : Bool := decide (b.displayValue ≤ a.displayValue)

/-- Models `filteredData` (source lines 787-806): filter, attach `displayValue`,
drop non-positive values, stable-sort descending by `displayValue`. -/
def filteredData (cfg : Config) (data : List Row) : List FlowRow :=
  (eligibleRows cfg data).mergeSort dvLE

/-! ### Map data (`mapData`, source lines 809-831) -/

/-- Coordinate repair for one row (source lines 813-827): parse the four cells
with `toNum`, apply `fixLon` to the longitudes, and keep the record only when
all four are finite - all-or-nothing, `((latO, lonO), (latD, lonD))`. -/
def coordRepair (row : Row) : Option ((ℚ × ℚ) × (ℚ × ℚ)) :=
  match (toNumV (objGet row lonOKey)).map fixLon, toNumV (objGet row latOKey),
      (toNumV (objGet row lonDKey)).map fixLon, toNumV (objGet row latDKey) with
  | some lonO, some latO, some lonD, some latD => some ((latO, lonO), (latD, lonD))
  | _, _, _, _ => none

/-- A record of the rendered map subset: the flow row with its repaired
`oCoords`/`dCoords` (each `[lat, lon]`). -/
structure MapRow where
  flow : FlowRow
  oCoords : ℚ × ℚ
  dCoords : ℚ × ℚ
deriving DecidableEq, Repr

/-- Models `mapData` (source lines 809-831): take the top `topN` of `filteredData`,
attach repaired coordinates, and drop records whose repair failed. -/
def mapData (cfg : Config) (data : List Row) (topN : Nat) : List MapRow :=
  ((filteredData cfg data).take topN).filterMap fun r =>
    (coordRepair r.base).map fun c => ⟨r, c.1, c.2⟩

/-! ### Visual weight mapper (`USAMapVisualization`, source lines 596-614)

The mapper works on floating-point transcendentals (`Math.log1p`, `Math.pow`);
it is embedded over the exact reals. -/

/-- The `minLog`/`maxLog` pair over the rendered subset (source lines 596-602): for an
empty subset `(0, 1)`; otherwise the min and max of
`log1p(max(0, displayValue))`, with `maxLog` floored at `minLog + 1e-6`. -/
noncomputable def minMaxLog (flows : List ℝ) : ℝ × ℝ :=
  match flows.map fun f => Real.log (1 + max 0 f) with
  | [] => (0, 1)
  | x :: xs =>
    let minL := xs.foldl min x
    let maxL := xs.foldl max x
    (minL, max maxL (minL + 1e-6))

/-- Models `strokeFor` (source lines 604-614): clamp the log-domain normalisation to
`[0, 1]`, apply the emphasis exponent `1.15`, and map into `[0.8, 14.0]`. -/
noncomputable def strokeFor (flows : List ℝ) (vRaw : ℝ) : ℝ :=
  let p := minMaxLog flows
  let v := max 0 vRaw
  let logv := Real.log (1 + v)
  let t := (logv - p.1) / (p.2 - p.1)
  let t2 := (min 1 (max 0 t)) ^ (1.15 : ℝ)
  0.8 + t2 * (14.0 - 0.8)

/-- The mapper applied to a whole rendered subset: each record annotated with
its stroke weight (source lines 641-645 apply `strokeFor` to every record). -/
noncomputable def annotateFlows (flows : List ℝ) : List (ℝ × ℝ) :=
  flows.map fun v => (v, strokeFor flows v)

/-- The rendered subset of the weight-mapping determinism scenario. -/
noncomputable def demoFlows : List ℝ := [10, 100, 1000]

/-! ## Concrete inputs used by the claims -/

set_option maxRecDepth 4000

/-- The end-to-end scenario input text. -/
def endToEndCSV : String :=
  "year,origin_name,destination_name,lat_o,lon_o,lat_d,lon_d,total_wt_l_all,total_wt_b_all,total_wt_t_all\n2021,\"Boston, MA\",\"Austin, TX\",42.36,71.06,30.27,97.74,100,50,150"

/-- purpose = total, year = All, empty origin/destination queries. -/
def endToEndCfg : Config := ⟨"All".data, .total, [], []⟩

/-- The row the parser produces for the end-to-end scenario's data line. -/
def bostonRow : Row :=
  [(yearKey, .num (mkRat 2021 1)), (originKey, .str "Boston, MA".data),
   (destKey, .str "Austin, TX".data),
   (latOKey, .num (mkRat 4236 100)), (lonOKey, .num (mkRat 7106 100)),
   (latDKey, .num (mkRat 3027 100)), (lonDKey, .num (mkRat 9774 100)),
   (magnitudeKey .leisure, .num (mkRat 100 1)), (magnitudeKey .business, .num (mkRat 50 1)),
   (magnitudeKey .total, .num (mkRat 150 1))]

theorem parseCSV_endToEnd : parseCSV endToEndCSV = [bostonRow] := by decide

theorem filteredData_endToEnd :
    filteredData endToEndCfg (parseCSV endToEndCSV) = [⟨bostonRow, 150, .total⟩] := by
  have h1 : eligibleRows endToEndCfg [bostonRow] = [⟨bostonRow, 150, .total⟩] := by decide
  rw [filteredData, parseCSV_endToEnd, h1]
  exact List.mergeSort_singleton _

/-- The single rendered record of the end-to-end scenario. -/
def endToEndMapRow : MapRow :=
  ⟨⟨bostonRow, 150, .total⟩, (mkRat 4236 100, -(mkRat 7106 100)),
    (mkRat 3027 100, -(mkRat 9774 100))⟩

theorem mapData_endToEnd :
    mapData endToEndCfg (parseCSV endToEndCSV) 50 = [endToEndMapRow] := by
  rw [mapData, filteredData_endToEnd]; decide

/-- C1: for the end-to-end scenario input, with purpose = total, year = All and
empty origin/destination queries, the pipeline (parse, filter/select, top-N
coordinate repair) produces exactly one flow record, with displayValue 150,
origin coordinates [42.36, -71.06] and destination coordinates
[30.27, -97.74]. -/
theorem endToEnd_pipeline_single_record :
    (filteredData endToEndCfg (parseCSV endToEndCSV)).length = 1
      ∧ (filteredData endToEndCfg (parseCSV endToEndCSV)).map (·.displayValue) = [150]
      ∧ (mapData endToEndCfg (parseCSV endToEndCSV) 50).map
          (fun m => (m.oCoords, m.dCoords))
        = [((42.36, -71.06), (30.27, -97.74))] := by
  refine ⟨by rw [filteredData_endToEnd]; rfl, by rw [filteredData_endToEnd]; rfl, ?_⟩
  rw [mapData_endToEnd, endToEndMapRow]
  norm_num [Rat.mkRat_eq_divInt, Rat.divInt_eq_div]

/-- C2 counterexample: a data cell written `"007"` (quotes included) parses to
the number 7, not the string "007": the quote-aware scan consumes the quote
characters before the cell coercion runs, so the numeric check sees `007`. -/
theorem quoted_numeric_cell_becomes_number :
    parseCSV "x\n\"007\"" = [[(['x'], Value.num 7)]]
      ∧ Value.num 7 ≠ Value.str "007".data := by decide

/-- C2 amended: in the full parser a cell written `"007"` coerces to the
number 7, because the scanner strips the quotes before the numeric check; the
coercion rule as written (numeric check first, quote-strip after) yields the
string "007" only when applied to a raw field string that still carries its
quotes, which the scanner never produces. -/
theorem quoted_numeric_cell_coercion :
    parseCSV "x\n\"007\"" = [[(['x'], Value.num 7)]]
      ∧ coerceCell "\"007\"".data = Value.str "007".data
      ∧ coerceCell "007".data = Value.num 7 := by decide

/-! ## The selector contract (C3) -/

theorem dvLE_trans (a b c : FlowRow) : dvLE a b → dvLE b c → dvLE a c := by
  simp only [dvLE, decide_eq_true_eq]
  exact fun h1 h2 => le_trans h2 h1

theorem dvLE_total (a b : FlowRow) : dvLE a b || dvLE b a := by
  simp only [dvLE, Bool.or_eq_true, decide_eq_true_eq]
  exact le_total b.displayValue a.displayValue

/-- C3: `filteredData` contains exactly the rows passing the filters whose
selected `displayValue` is strictly positive (`eligibleRows`, a permutation),
in non-increasing `displayValue` order, and records of equal `displayValue`
keep their relative input order (stable descending sort). -/
theorem filteredData_sorted_stable (cfg : Config) (data : List Row) :
    (filteredData cfg data).Perm (eligibleRows cfg data)
      ∧ (filteredData cfg data).Pairwise (fun a b => b.displayValue ≤ a.displayValue)
      ∧ ∀ a b : FlowRow, a.displayValue = b.displayValue →
          List.Sublist [a, b] (eligibleRows cfg data) →
          List.Sublist [a, b] (filteredData cfg data) := by
  refine ⟨List.mergeSort_perm _ _, ?_, ?_⟩
  · have h := List.sorted_mergeSort dvLE_trans dvLE_total (eligibleRows cfg data)
    exact h.imp fun hab => by simpa [dvLE] using hab
  · intro a b hab hsub
    exact List.pair_sublist_mergeSort dvLE_trans dvLE_total
      (by simp [dvLE, hab.le, hab.symm.le]) hsub

/-- Two rows with the same total weight, used to exercise sort stability. -/
def stableRows : List Row :=
  [[(originKey, .str "P".data), (magnitudeKey .total, .num (mkRat 5 1))],
   [(originKey, .str "Q".data), (magnitudeKey .total, .num (mkRat 5 1))]]

theorem filteredData_sorted_stable_witness :
    List.Sublist
      [⟨[(originKey, .str "P".data), (magnitudeKey .total, .num (mkRat 5 1))], 5, .total⟩,
       ⟨[(originKey, .str "Q".data), (magnitudeKey .total, .num (mkRat 5 1))], 5, .total⟩]
      (filteredData endToEndCfg stableRows) :=
  (filteredData_sorted_stable endToEndCfg stableRows).2.2 _ _ (by decide)
    (by have h : eligibleRows endToEndCfg stableRows
          = [⟨[(originKey, .str "P".data), (magnitudeKey .total, .num (mkRat 5 1))], 5, .total⟩,
             ⟨[(originKey, .str "Q".data), (magnitudeKey .total, .num (mkRat 5 1))], 5, .total⟩] := by
          decide
        rw [h])

/-! ## The origin/destination text filter (C8) -/

theorem includesList_eq_true_iff (s pat : List Char) :
    includesList s pat = true ↔ pat <:+: s := by
  simp only [includesList, List.any_eq_true, List.mem_tails,
    List.isPrefixOf_iff_prefix, List.infix_iff_prefix_suffix]
  exact ⟨fun ⟨t, h1, h2⟩ => ⟨t, h2, h1⟩, fun ⟨t, h1, h2⟩ => ⟨t, h2, h1⟩⟩

/-- C8 counterexample: with the non-empty query "x" and a row whose
`origin_name` cell is the empty string, the filter passes the row (the
truthiness guard short-circuits), although the query is non-empty and the
lowercased name does not contain the lowercased query - so "passes iff query
empty or name contains query" fails. -/
theorem text_filter_falsy_name_counterexample :
    rowPasses ⟨"All".data, .total, "x".data, []⟩
        [(originKey, .str []), (magnitudeKey .total, .num (mkRat 5 1))] = true
      ∧ textFilterPasses "x".data (some (Value.str [])) = true
      ∧ "x".data ≠ ([] : List Char)
      ∧ ¬(toLowerChars "x".data) <:+: (toLowerChars (jsStringV (some (Value.str [])))) := by
  refine ⟨by decide, by decide, by decide, ?_⟩
  rw [← includesList_eq_true_iff]
  decide

/-- C8 amended: a row passes the origin (resp. destination) text filter iff
the query is empty, or the name cell is falsy (absent, empty string, or the
number 0), or the lowercased stringified name contains the lowercased query as
a substring. -/
theorem text_filter_passes_iff (query : List Char) (cell : Option Value) :
    textFilterPasses query cell = true ↔
      (query = [] ∨ truthyVal cell = false
        ∨ (toLowerChars query) <:+: (toLowerChars (jsStringV cell))) := by
  rw [← includesList_eq_true_iff]
  simp only [textFilterPasses, Bool.not_eq_true', Bool.and_eq_true, truthyStr,
    Bool.not_eq_false]
  rcases hq : query.isEmpty with _ | _
  · rcases ht : truthyVal cell with _ | _
    · simp [hq, ht]
    · rcases hi : includesList (toLowerChars (jsStringV cell)) (toLowerChars query) with _ | _
      · simp [hq, ht, hi, ← List.isEmpty_iff, Bool.not_eq_true]
      · simp [hq, ht, hi]
  · simp [hq, List.isEmpty_iff.mp hq]

/-! ## Coordinate repair (C4, C5) -/

/-- The end-to-end scenario input with an empty `lon_o` cell. -/
def emptyLonCSV : String :=
  "year,origin_name,destination_name,lat_o,lon_o,lat_d,lon_d,total_wt_l_all,total_wt_b_all,total_wt_t_all\n2021,A,B,42.36,,30.27,97.74,100,50,150"

/-- The row the parser produces for the empty-`lon_o` data line. -/
def emptyLonRow : Row :=
  [(yearKey, .num (mkRat 2021 1)), (originKey, .str "A".data), (destKey, .str "B".data),
   (latOKey, .num (mkRat 4236 100)), (lonOKey, .str []),
   (latDKey, .num (mkRat 3027 100)), (lonDKey, .num (mkRat 9774 100)),
   (magnitudeKey .leisure, .num (mkRat 100 1)), (magnitudeKey .business, .num (mkRat 50 1)),
   (magnitudeKey .total, .num (mkRat 150 1))]

theorem parseCSV_emptyLon : parseCSV emptyLonCSV = [emptyLonRow] := by decide

theorem filteredData_emptyLon :
    filteredData endToEndCfg (parseCSV emptyLonCSV) = [⟨emptyLonRow, 150, .total⟩] := by
  have h1 : eligibleRows endToEndCfg [emptyLonRow] = [⟨emptyLonRow, 150, .total⟩] := by decide
  rw [filteredData, parseCSV_emptyLon, h1]
  exact List.mergeSort_singleton _

/-- C4 counterexample: an empty longitude cell does not invalidate the
coordinate pair-set.  `toNum` on the empty string is `Number('') = 0`, which is
finite, so the record is emitted with full coordinates and longitude 0. -/
theorem empty_longitude_not_invalidated :
    toNumV (some (Value.str [])) = some 0
      ∧ (mapData endToEndCfg (parseCSV emptyLonCSV) 50).length = 1
      ∧ (mapData endToEndCfg (parseCSV emptyLonCSV) 50).map (fun m => m.oCoords)
        = [(42.36, 0)] := by
  have hm : mapData endToEndCfg (parseCSV emptyLonCSV) 50
      = [⟨⟨emptyLonRow, 150, .total⟩, (mkRat 4236 100, 0), (mkRat 3027 100, -(mkRat 9774 100))⟩] := by
    rw [mapData, filteredData_emptyLon]; decide
  refine ⟨by decide, by rw [hm]; rfl, ?_⟩
  rw [hm]
  norm_num [Rat.mkRat_eq_divInt, Rat.divInt_eq_div]

/-- Coordinates are emitted exactly when all four cells coerce to a finite
number (the all-or-nothing rule of `mapData`). -/
theorem coordRepair_isSome_iff (row : Row) :
    (coordRepair row).isSome ↔
      ((toNumV (objGet row lonOKey)).isSome ∧ (toNumV (objGet row latOKey)).isSome
        ∧ (toNumV (objGet row lonDKey)).isSome ∧ (toNumV (objGet row latDKey)).isSome) := by
  rcases h1 : toNumV (objGet row lonOKey) with _ | lonO <;>
    rcases h2 : toNumV (objGet row latOKey) with _ | latO <;>
      rcases h3 : toNumV (objGet row lonDKey) with _ | lonD <;>
        rcases h4 : toNumV (objGet row latDKey) with _ | latD <;>
          simp [coordRepair, h1, h2, h3, h4]

theorem fixLon_nonpos (q : ℚ) : fixLon q ≤ 0 := by
  by_cases h : q > 0
  · simp only [fixLon, if_pos h]
    linarith
  · simp only [fixLon, if_neg h]
    exact le_of_not_lt h

/-- C4 amended: `fixLon` negates a positive longitude and leaves the rest
unchanged (71.5 becomes -71.5, -71.5 is unchanged); but an empty (or missing)
longitude cell is coerced to the finite number 0 by the coordinate parser, so
it yields longitude 0 instead of invalidating the record; the all-or-nothing
rule holds in the sense that coordinates are emitted exactly when all four
cells coerce to a finite number. -/
theorem fixLon_repair_amended :
    (∀ q : ℚ, 0 < q → fixLon q = -q)
      ∧ (∀ q : ℚ, q ≤ 0 → fixLon q = q)
      ∧ fixLon 71.5 = -71.5
      ∧ fixLon (-71.5) = -71.5
      ∧ toNumV (some (Value.str [])) = some 0
      ∧ toNumV none = some 0
      ∧ ∀ row : Row, (coordRepair row).isSome ↔
          ((toNumV (objGet row lonOKey)).isSome ∧ (toNumV (objGet row latOKey)).isSome
            ∧ (toNumV (objGet row lonDKey)).isSome ∧ (toNumV (objGet row latDKey)).isSome) := by
  refine ⟨fun q hq => by simp only [fixLon, if_pos hq],
    fun q hq => by simp only [fixLon, if_neg (not_lt.mpr hq)],
    by rw [fixLon, if_pos]; norm_num,
    by rw [fixLon, if_neg]; norm_num,
    by decide, by decide, coordRepair_isSome_iff⟩

theorem fixLon_repair_amended_witness :
    fixLon 5 = -5 ∧ fixLon (-3) = -3 :=
  ⟨fixLon_repair_amended.1 5 (by norm_num), fixLon_repair_amended.2.1 (-3) (by norm_num)⟩

/-- The end-to-end scenario input with an out-of-range latitude (`lat_o` 100). -/
def bigLatCSV : String :=
  "year,origin_name,destination_name,lat_o,lon_o,lat_d,lon_d,total_wt_l_all,total_wt_b_all,total_wt_t_all\n2021,A,B,100,71.06,30.27,97.74,100,50,150"

/-- The row the parser produces for the out-of-range-latitude data line. -/
def bigLatRow : Row :=
  [(yearKey, .num (mkRat 2021 1)), (originKey, .str "A".data), (destKey, .str "B".data),
   (latOKey, .num (mkRat 100 1)), (lonOKey, .num (mkRat 7106 100)),
   (latDKey, .num (mkRat 3027 100)), (lonDKey, .num (mkRat 9774 100)),
   (magnitudeKey .leisure, .num (mkRat 100 1)), (magnitudeKey .business, .num (mkRat 50 1)),
   (magnitudeKey .total, .num (mkRat 150 1))]

theorem parseCSV_bigLat : parseCSV bigLatCSV = [bigLatRow] := by decide

theorem filteredData_bigLat :
    filteredData endToEndCfg (parseCSV bigLatCSV) = [⟨bigLatRow, 150, .total⟩] := by
  have h1 : eligibleRows endToEndCfg [bigLatRow] = [⟨bigLatRow, 150, .total⟩] := by decide
  rw [filteredData, parseCSV_bigLat, h1]
  exact List.mergeSort_singleton _

/-- C5 counterexample: latitudes are never range-checked, so a record with
latitude 100 (outside [-90, 90]) is emitted with coordinates. -/
theorem latitude_out_of_range_emitted :
    (mapData endToEndCfg (parseCSV bigLatCSV) 50).map (fun m => m.oCoords.1) = [100]
      ∧ ¬((100 : ℚ) ≤ 90) := by
  have hm : mapData endToEndCfg (parseCSV bigLatCSV) 50
      = [⟨⟨bigLatRow, 150, .total⟩, (mkRat 100 1, -(mkRat 7106 100)),
          (mkRat 3027 100, -(mkRat 9774 100))⟩] := by
    rw [mapData, filteredData_bigLat]; decide
  refine ⟨by rw [hm]; decide, by norm_num⟩

/-- C5 amended: every record emitted with coordinates has both longitudes
≤ 0 after repair; its latitudes are the parsed cell values passed through
unvalidated (so they lie in [-90, 90] exactly when the input data does). -/
theorem emitted_longitudes_nonpositive (cfg : Config) (data : List Row) (n : Nat)
    (m : MapRow) (hm : m ∈ mapData cfg data n) :
    m.oCoords.2 ≤ 0 ∧ m.dCoords.2 ≤ 0
      ∧ toNumV (objGet m.flow.base latOKey) = some m.oCoords.1
      ∧ toNumV (objGet m.flow.base latDKey) = some m.dCoords.1 := by
  rw [mapData] at hm
  obtain ⟨r, -, hr⟩ := List.mem_filterMap.mp hm
  obtain ⟨c, hc, rfl⟩ := Option.map_eq_some'.mp hr
  rcases h1 : toNumV (objGet r.base lonOKey) with _ | lonO <;>
    rcases h2 : toNumV (objGet r.base latOKey) with _ | latO <;>
      rcases h3 : toNumV (objGet r.base lonDKey) with _ | lonD <;>
        rcases h4 : toNumV (objGet r.base latDKey) with _ | latD <;>
          simp [coordRepair, h1, h2, h3, h4] at hc
  subst hc
  refine ⟨fixLon_nonpos lonO, fixLon_nonpos lonD, ?_, ?_⟩ <;> simp [h2, h4]

theorem emitted_longitudes_nonpositive_witness :
    endToEndMapRow.oCoords.2 ≤ 0 ∧ endToEndMapRow.dCoords.2 ≤ 0
      ∧ toNumV (objGet endToEndMapRow.flow.base latOKey) = some endToEndMapRow.oCoords.1
      ∧ toNumV (objGet endToEndMapRow.flow.base latDKey) = some endToEndMapRow.dCoords.1 :=
  emitted_longitudes_nonpositive endToEndCfg (parseCSV endToEndCSV) 50 endToEndMapRow
    (by rw [mapData_endToEnd]; exact List.mem_singleton.mpr rfl)

/-! ## Local recovery of coordinate invalidity (C9) -/

theorem coordRepair_eq_none (row : Row)
    (hbad : toNumV (objGet row lonOKey) = none ∨ toNumV (objGet row latOKey) = none
      ∨ toNumV (objGet row lonDKey) = none ∨ toNumV (objGet row latDKey) = none) :
    coordRepair row = none := by
  rw [← Option.not_isSome_iff_eq_none]
  intro hs
  obtain ⟨s1, s2, s3, s4⟩ := (coordRepair_isSome_iff row).mp hs
  rcases hbad with hb | hb | hb | hb <;> simp [hb] at s1 s2 s3 s4

/-- C9: a record one of whose four coordinate cells fails to parse as a finite
number is excluded from the map subset only - it carries no coordinates and no
map record is built from it - while the filtered/ranked sequence (used for
ranking and the table) still holds it at its rank position. -/
theorem invalid_coords_only_excluded_from_map (cfg : Config) (data : List Row)
    (n i : Nat) (r : FlowRow)
    (hi : (filteredData cfg data)[i]? = some r)
    (hbad : toNumV (objGet r.base lonOKey) = none ∨ toNumV (objGet r.base latOKey) = none
      ∨ toNumV (objGet r.base lonDKey) = none ∨ toNumV (objGet r.base latDKey) = none) :
    (∀ m ∈ mapData cfg data n, m.flow ≠ r) ∧ (filteredData cfg data)[i]? = some r := by
  refine ⟨?_, hi⟩
  intro m hm
  rw [mapData] at hm
  obtain ⟨fr, -, hfr⟩ := List.mem_filterMap.mp hm
  obtain ⟨c, hc, rfl⟩ := Option.map_eq_some'.mp hfr
  intro hflow
  obtain rfl : fr = r := hflow
  rw [coordRepair_eq_none _ hbad] at hc
  exact Option.noConfusion hc

/-- A row whose `lon_o` cell is non-numeric text, plus a positive total. -/
def badLonRow : Row :=
  [(originKey, .str "P".data), (lonOKey, .str "abc".data),
   (latOKey, .num (mkRat 42 1)), (lonDKey, .num (mkRat 97 1)),
   (latDKey, .num (mkRat 30 1)), (magnitudeKey .total, .num (mkRat 5 1))]

theorem filteredData_badLon :
    filteredData endToEndCfg [badLonRow] = [⟨badLonRow, 5, .total⟩] := by
  have h1 : eligibleRows endToEndCfg [badLonRow] = [⟨badLonRow, 5, .total⟩] := by decide
  rw [filteredData, h1]
  exact List.mergeSort_singleton _

theorem invalid_coords_only_excluded_from_map_witness :
    (∀ m ∈ mapData endToEndCfg [badLonRow] 50, m.flow ≠ ⟨badLonRow, 5, .total⟩)
      ∧ (filteredData endToEndCfg [badLonRow])[0]? = some ⟨badLonRow, 5, .total⟩ :=
  invalid_coords_only_excluded_from_map endToEndCfg [badLonRow] 50 0 ⟨badLonRow, 5, .total⟩
    (by rw [filteredData_badLon]; rfl) (Or.inl (by decide))

/-! ## The visual weight mapper (C6, C7) -/

theorem minMaxLog_demo : minMaxLog demoFlows = (Real.log 11, Real.log 1001) := by
  have e10 : (1 : ℝ) + max 0 10 = 11 := by norm_num
  have e100 : (1 : ℝ) + max 0 100 = 101 := by norm_num
  have e1000 : (1 : ℝ) + max 0 1000 = 1001 := by norm_num
  have h1 : Real.log 11 ≤ Real.log 101 := Real.log_le_log (by norm_num) (by norm_num)
  have h2 : Real.log 101 ≤ Real.log 1001 := Real.log_le_log (by norm_num) (by norm_num)
  have h3 : Real.log 11 + 1e-6 ≤ Real.log 1001 := by
    have hm : Real.log 22 = Real.log 11 + Real.log 2 := by
      rw [show (22 : ℝ) = 11 * 2 by norm_num, Real.log_mul (by norm_num) (by norm_num)]
    have h22 : Real.log 22 ≤ Real.log 1001 := Real.log_le_log (by norm_num) (by norm_num)
    have hl2 : (1e-6 : ℝ) ≤ Real.log 2 := by
      have hd := Real.log_two_gt_d9
      norm_num at hd ⊢
      linarith
    linarith
  simp only [demoFlows, minMaxLog, List.map_cons, List.map_nil, e10, e100, e1000,
    List.foldl_cons, List.foldl_nil]
  rw [min_eq_left h1, min_eq_left (le_trans h1 h2), max_eq_right h1, max_eq_right h2,
    max_eq_left h3]

theorem strokeFor_ge_minW (flows : List ℝ) (v : ℝ) : 0.8 ≤ strokeFor flows v := by
  rw [strokeFor]
  have ht : (0 : ℝ) ≤ min 1 (max 0 ((Real.log (1 + max 0 v) - (minMaxLog flows).1) /
      ((minMaxLog flows).2 - (minMaxLog flows).1))) :=
    le_min (by norm_num) (le_max_left 0 _)
  have := mul_nonneg (Real.rpow_nonneg ht (1.15 : ℝ)) (by norm_num : (0 : ℝ) ≤ 14.0 - 0.8)
  linarith

/-- C6: on the rendered subset with displayValues [10, 100, 1000], the record
with value 1000 gets displayWeight exactly 14.0 and the record with value 10
gets the minimum weight of the subset (0.8 here, since it attains the log-range
minimum); every weight follows the formula
`0.8 + clamp((ln(1+v) - minLog)/(maxLog - minLog), 0, 1)^1.15 * (14.0 - 0.8)`
with `minLog = ln 11` and `maxLog = ln 1001`. -/
theorem weight_mapping_demo :
    strokeFor demoFlows 1000 = 14.0
      ∧ strokeFor demoFlows 10 = 0.8
      ∧ strokeFor demoFlows 10 ≤ strokeFor demoFlows 100
      ∧ strokeFor demoFlows 10 ≤ strokeFor demoFlows 1000
      ∧ ∀ v : ℝ, strokeFor demoFlows v
          = 0.8 + (min 1 (max 0 ((Real.log (1 + max 0 v) - Real.log 11) /
              (Real.log 1001 - Real.log 11)))) ^ (1.15 : ℝ) * (14.0 - 0.8) := by
  have hlt : Real.log 11 < Real.log 1001 := Real.log_lt_log (by norm_num) (by norm_num)
  have hne : Real.log 1001 - Real.log 11 ≠ 0 := sub_ne_zero.mpr hlt.ne'
  have h1000 : strokeFor demoFlows 1000 = 14.0 := by
    rw [strokeFor, minMaxLog_demo]
    norm_num [div_self hne, Real.one_rpow]
  have h10 : strokeFor demoFlows 10 = 0.8 := by
    rw [strokeFor, minMaxLog_demo]
    norm_num [Real.zero_rpow (by norm_num : (1.15 : ℝ) ≠ 0)]
  refine ⟨h1000, h10, ?_, ?_, fun v => by rw [strokeFor, minMaxLog_demo]⟩
  · rw [h10]; exact strokeFor_ge_minW demoFlows 100
  · rw [h10]; exact strokeFor_ge_minW demoFlows 1000

/-- C7: the weight computation never divides by zero - the mapper on zero
records yields zero annotated records, and for every subset the normalisation
denominator `maxLog - minLog` is strictly positive (for the empty subset the
defaults are `(0, 1)`; otherwise `maxLog` is floored at `minLog + 1e-6`). -/
theorem weight_mapper_no_division_by_zero :
    annotateFlows [] = []
      ∧ ∀ flows : List ℝ, 0 < (minMaxLog flows).2 - (minMaxLog flows).1 := by
  refine ⟨rfl, fun flows => ?_⟩
  cases flows with
  | nil => simp [minMaxLog]
  | cons a l =>
    simp only [minMaxLog, List.map_cons]
    have hmax := le_max_right ((List.map (fun f => Real.log (1 + max 0 f)) l).foldl max
      (Real.log (1 + max 0 a)))
      (((List.map (fun f => Real.log (1 + max 0 f)) l).foldl min
        (Real.log (1 + max 0 a))) + 1e-6)
    have : (0 : ℝ) < 1e-6 := by norm_num
    linarith

/-! ## No parsed cell value contains a double quote (C10) -/

theorem mem_dropLeadingWS (s : List Char) : ∀ c, c ∈ dropLeadingWS s → c ∈ s := by
  induction s with
  | nil => intro c h; simp [dropLeadingWS] at h
  | cons a s ih =>
    intro c h
    rw [dropLeadingWS] at h
    by_cases hw : isWS a
    · rw [if_pos hw] at h
      exact List.mem_cons_of_mem a (ih c h)
    · rw [if_neg hw] at h
      exact h

theorem mem_dropTrailingWS (s : List Char) : ∀ c, c ∈ dropTrailingWS s → c ∈ s := by
  induction s with
  | nil => intro c h; simp [dropTrailingWS] at h
  | cons a s ih =>
    intro c h
    rw [dropTrailingWS] at h
    rcases hr : dropTrailingWS s with _ | ⟨r0, rs⟩
    · rw [hr] at h
      by_cases hw : isWS a
      · simp [hw] at h
      · simp [hw] at h
        simp [h]
    · rw [hr] at h
      rcases List.mem_cons.mp h with rfl | h2
      · exact List.mem_cons_self _ _
      · exact List.mem_cons_of_mem a (ih c (hr ▸ h2))

theorem mem_jsTrim (s : List Char) (c : Char) (h : c ∈ jsTrim s) : c ∈ s :=
  mem_dropLeadingWS s c (mem_dropTrailingWS _ c h)

/-- On a quote-free raw field the two coercions agree (the quote-strip branch
cannot fire) and a string result is again quote-free. -/
theorem coerceCell_no_quote (s : List Char) (h : '"' ∉ s) :
    coerceCell s = coerceCellNoStrip s
      ∧ ∀ t, coerceCell s = Value.str t → '"' ∉ t := by
  have hv : '"' ∉ jsTrim s := fun hm => h (mem_jsTrim s '"' hm)
  have hq : startsEndsQuote (jsTrim s) = false := by
    rcases hh : (jsTrim s).head? with _ | c
    · simp [startsEndsQuote, hh]
    · by_cases hc : c = '"'
      · subst hc
        exact absurd (List.mem_of_mem_head? hh) hv
      · simp [startsEndsQuote, hh, hc]
  rcases hn : coerceNum (jsTrim s) with _ | q
  · constructor
    · simp [coerceCell, coerceCellNoStrip, hn, hq]
    · intro t ht
      simp [coerceCell, hn, hq] at ht
      cases ht
      exact hv
  · constructor
    · simp [coerceCell, coerceCellNoStrip, hn]
    · intro t ht
      simp [coerceCell, hn] at ht

/-- Every raw field buffer produced by the quote-aware scan is quote-free: a
double quote only ever toggles the flag and is never accumulated. -/
theorem scanFields_no_quote (cs : List Char) :
    ∀ (inQ : Bool) (f : List Char), f ∈ scanFields cs inQ → '"' ∉ f := by
  induction cs with
  | nil =>
    intro inQ f hf
    simp [scanFields] at hf
    subst hf
    simp
  | cons c cs ih =>
    intro inQ f hf
    by_cases h1 : c = '"'
    · subst h1
      simp only [scanFields] at hf
      exact ih (!inQ) f hf
    · by_cases h2 : c = ','
      · subst h2
        cases inQ with
        | false =>
          simp only [scanFields, List.mem_cons] at hf
          rcases hf with rfl | hf
          · simp
          · exact ih false f hf
        | true =>
          simp only [scanFields] at hf
          rcases hr : scanFields cs true with _ | ⟨f0, fs⟩
          · rw [hr] at hf
            simp at hf
            simp [hf]
          · rw [hr] at hf
            rcases List.mem_cons.mp hf with rfl | h3
            · intro hm
              rcases List.mem_cons.mp hm with he | hm2
              · exact absurd he (by decide)
              · exact ih true f0 (hr ▸ List.mem_cons_self f0 fs) hm2
            · exact ih true f (hr ▸ List.mem_cons_of_mem f0 h3)
      · rw [scanFields.eq_5 inQ c cs (fun he => h1 he) (fun he _ => h2 he)
          (fun he _ => h2 he)] at hf
        rcases hr : scanFields cs inQ with _ | ⟨f0, fs⟩
        · rw [hr] at hf
          simp at hf
          subst hf
          simp only [List.mem_singleton]
          exact fun he => h1 he.symm
        · rw [hr] at hf
          rcases List.mem_cons.mp hf with rfl | h3
          · intro hm
            rcases List.mem_cons.mp hm with he | hm2
            · exact h1 he.symm
            · exact ih inQ f0 (hr ▸ List.mem_cons_self f0 fs) hm2
          · exact ih inQ f (hr ▸ List.mem_cons_of_mem f0 h3)

/-- C10: the parser never emits a cell value containing a double-quote
character, and consequently the post-hoc quote-stripping branch of the cell
coercion is dead code: replacing the coercion by one without that branch leaves
`parseCSV` unchanged on every input. -/
theorem parsed_values_quote_free :
    (∀ (text : String) (row : Row) (p : List Char × Value),
        row ∈ parseCSV text → p ∈ row → ∀ s, p.2 = Value.str s → '"' ∉ s)
      ∧ ∀ text : String, parseCSVWith coerceCell text = parseCSVWith coerceCellNoStrip text := by
  constructor
  · intro text row p hrow hp s hs
    rw [parseCSV, parseCSVWith] at hrow
    rcases hl : (splitLines text.data).filter (fun l => !(jsTrim l).isEmpty) with _ | ⟨header, rest⟩
    · rw [hl] at hrow
      simp at hrow
    · rw [hl] at hrow
      simp only [List.mem_map] at hrow
      obtain ⟨line, -, rfl⟩ := hrow
      rw [rowOfFields] at hp
      simp only [List.mem_map] at hp
      obtain ⟨pair, hpair, rfl⟩ := hp
      have hf : pair.2 ∈ scanFields line false := (List.of_mem_zip hpair).2
      have hnq := scanFields_no_quote line false pair.2 hf
      have := (coerceCell_no_quote pair.2 hnq).2 s hs
      exact this
  · intro text
    rw [parseCSVWith, parseCSVWith]
    rcases hl : (splitLines text.data).filter (fun l => !(jsTrim l).isEmpty) with _ | ⟨header, rest⟩
    · rfl
    · simp only []
      refine List.map_congr_left fun line _ => ?_
      rw [rowOfFields, rowOfFields]
      refine List.map_congr_left fun pair hpair => ?_
      have hf : pair.2 ∈ scanFields line false := (List.of_mem_zip hpair).2
      rw [(coerceCell_no_quote pair.2 (scanFields_no_quote line false pair.2 hf)).1]

theorem parsed_values_quote_free_witness : '"' ∉ ['q'] :=
  parsed_values_quote_free.1 "a\n\"q\"" [(['a'], Value.str ['q'])] (['a'], Value.str ['q'])
    (by decide) (by decide) ['q'] rfl

end FlowMap
